import Mathlib

/-!
Verification development for the IFT_tool repository.

Each Python function relevant to the checked claims is shallowly embedded as a
Lean definition translated from the source.  Python floats are modelled by `ℚ`
(every concrete value appearing in the claims is exact); Python `None` and
caught exceptions are modelled by `Option`/`Except`; Python dicts are modelled
by association lists or by explicitly updated functions.  IEEE NaN cell values
are outside the model except where the source tests for them explicitly.
-/

namespace IFT

/-! ## Python string helpers

`str.strip()` / `str.split()` on the whitespace characters relevant to this
code base (the sources only ever deal in ASCII whitespace plus the
non-breaking space U+00A0, which Python treats as whitespace too). -/

def isPySpace (c : Char) : Bool :=
  c = ' ' || c = '\t' || c = '\n' || c = '\r' || c = '\x0b' || c = '\x0c' || c = ' '

/-- Python `s.strip()` on a character list: drop whitespace at both ends. -/
def pyStripList (cs : List Char) : List Char :=
  ((cs.dropWhile isPySpace).reverse.dropWhile isPySpace).reverse

def pyStrip (s : String) : String :=
  ⟨pyStripList s.data⟩

/-- Python `s.split()` (no argument): maximal runs of non-whitespace. -/
def tokensAux : List Char → List Char → List (List Char)
  | [], cur => if cur = [] then [] else [cur.reverse]
  | c :: cs, cur =>
    if isPySpace c then
      (if cur = [] then tokensAux cs [] else cur.reverse :: tokensAux cs [])
    else
      tokensAux cs (c :: cur)

def pyTokens (s : String) : List String :=
  (tokensAux s.data []).map fun cs => ⟨cs⟩

/-- Python `str.lower()` on the basic latin letters (all strings this code
base compares after lowering are ASCII apart from U+00A0/U+2014, which
`lower()` leaves unchanged as well). -/
def asciiToLower (c : Char) : Char :=
  match c with
  | 'A' => 'a' | 'B' => 'b' | 'C' => 'c' | 'D' => 'd' | 'E' => 'e' | 'F' => 'f'
  | 'G' => 'g' | 'H' => 'h' | 'I' => 'i' | 'J' => 'j' | 'K' => 'k' | 'L' => 'l'
  | 'M' => 'm' | 'N' => 'n' | 'O' => 'o' | 'P' => 'p' | 'Q' => 'q' | 'R' => 'r'
  | 'S' => 's' | 'T' => 't' | 'U' => 'u' | 'V' => 'v' | 'W' => 'w' | 'X' => 'x'
  | 'Y' => 'y' | 'Z' => 'z'
  | c => c

def pyLower (s : String) : String :=
  ⟨s.data.map asciiToLower⟩

/-- Python `s.replace(a, b)` for a one-character pattern and replacement:
character-wise substitution. -/
def replaceChar (s : String) (a b : Char) : String :=
  ⟨s.data.map fun c => if c = a then b else c⟩

/-- Python `s.split(sep)` for a one-character separator. -/
def splitOnCharAux (sep : Char) : List Char → List Char → List (List Char)
  | [], cur => [cur.reverse]
  | c :: cs, cur =>
    if c = sep then cur.reverse :: splitOnCharAux sep cs []
    else splitOnCharAux sep cs (c :: cur)

def splitOnChar (s : String) (sep : Char) : List String :=
  (splitOnCharAux sep s.data []).map fun cs => ⟨cs⟩

/-- `excel_read._norm`: `" ".join(str(s).strip().lower().split())`.
(The leading `.strip()` is redundant: `split()` already ignores outer
whitespace, so we apply it through `pyTokens` directly.) -/
def norm (s : String) : String :=
  " ".intercalate (pyTokens (pyLower s))

/-! ## yaml_apply._eval_expr

The source evaluates the configured expression string with Python
`eval(expr, {"__builtins__": {}}, allowed)` where `allowed` holds the declared
variables (floats or `None`), the helper `_div` and the name `None`; any
exception is caught and turned into `None`.  We embed the fragment of the
Python expression language the claims are about: numeric literals, names,
unary minus, `+ - * /`, the provided `_div`, plus `//` as a representative
Python operator outside the claimed arithmetic grammar.  The result domain
collapses "evaluated to Python None" and "raised, caught by the wrapper" into
`none`, exactly as `_eval_expr`'s caller observes. -/

inductive PyExpr where
  | num (q : ℚ)
  | var (name : String)
  | noneLit
  | neg (a : PyExpr)
  | add (a b : PyExpr)
  | sub (a b : PyExpr)
  | mul (a b : PyExpr)
  | div (a b : PyExpr)
  | floordiv (a b : PyExpr)
  | callDiv (a b : PyExpr)
deriving DecidableEq

/-- A variable environment: the declared variables, each bound to a float or
to Python `None` (as produced by `_parse_number`). -/
abbrev Env := List (String × Option ℚ)

/-- Evaluation of one expression under `_eval_expr`'s environment.  Any
arithmetic on `None` raises `TypeError`, an unknown name raises `NameError`,
`/` and `//` by zero raise `ZeroDivisionError`; every such exception is caught
by the `try`/`except` in `_eval_expr` and becomes `none`. -/
def evalExpr : PyExpr → Env → Option ℚ
  | .num q, _ => some q
  | .var x, env =>
    match env.lookup x with
    | some v => v
    | none => none
  | .noneLit, _ => none
  | .neg a, env => (evalExpr a env).map (fun v => -v)
  | .add a b, env => do
    let va ← evalExpr a env
    let vb ← evalExpr b env
    pure (va + vb)
  | .sub a b, env => do
    let va ← evalExpr a env
    let vb ← evalExpr b env
    pure (va - vb)
  | .mul a b, env => do
    let va ← evalExpr a env
    let vb ← evalExpr b env
    pure (va * vb)
  | .div a b, env => do
    let va ← evalExpr a env
    let vb ← evalExpr b env
    if vb = 0 then none else pure (va / vb)
  | .floordiv a b, env => do
    let va ← evalExpr a env
    let vb ← evalExpr b env
    if vb = 0 then none else pure (⌊va / vb⌋ : ℚ)
  | .callDiv a b, env =>
    -- `_div(a, b)`: returns None when an operand is None or b == 0.
    match evalExpr a env, evalExpr b env with
    | some va, some vb => if vb = 0 then none else some (va / vb)
    | _, _ => none

/-- Top-level `_eval_expr` on a configuration string: a string that does not
parse as an expression raises `SyntaxError`, caught and turned into `None`. -/
def evalExprTop (parsed : Option PyExpr) (env : Env) : Option ℚ :=
  match parsed with
  | none => none
  | some e => evalExpr e env

/-- The restricted arithmetic grammar the specification describes:
numeric literals, variable references, unary minus, `+ - * /`
(`_div` is the division helper the environment itself provides). -/
def arithOnly : PyExpr → Bool
  | .num _ => true
  | .var _ => true
  | .noneLit => true
  | .neg a => arithOnly a
  | .add a b => arithOnly a && arithOnly b
  | .sub a b => arithOnly a && arithOnly b
  | .mul a b => arithOnly a && arithOnly b
  | .div a b => arithOnly a && arithOnly b
  | .callDiv a b => arithOnly a && arithOnly b
  | .floordiv _ _ => false

/-! ## excel_read: expected headers and header-row detection -/

/-- `EXPECTED_HEADERS`: the normalized closed vocabulary of known field
names. -/
def EXPECTED_HEADERS : List String :=
  ["#Ticket", "Trade ID", "External Id", "Counterparty", "Currency", "Class",
   "Custom Attribute5 Value", "Leg Type", "Pay/Rec", "Index/Fixed Rate",
   "Spread (bp)", "Start Date", "End Date", "Notional",
   "Dirty Value", "Clean Value", "Accrued Interest"].map norm

/-- A raw grid as `pandas.read_excel(..., header=None)` delivers it; each cell
is already rendered as the string Python's `str(...)` would produce for it. -/
abbrev Grid := List (List String)

/-- `_score_header_row`: how many cells of row `ridx` normalize to an expected
header token. -/
def scoreHeaderRow (grid : Grid) (ridx : Nat) : Nat :=
  ((grid.getD ridx []).map norm).countP (fun v => EXPECTED_HEADERS.contains v)

/-- `_flatten_two_rows`: cell-wise, prefer the lower row's stripped text when
it is nonempty, else the upper row's stripped text. -/
def flattenTwoRows (r1 r2 : List String) : List String :=
  (List.range (max r1.length r2.length)).map fun i =>
    let a := pyStrip (r1.getD i "")
    let b := pyStrip (r2.getD i "")
    if b = "" then a else b

/-- The header-search loop of `read_xls_smart`/`read_xls_with_positions`:
fold `(score, row)` over the first `min searchRows (length grid)` rows,
starting from `(-1, -1)` and replacing the best on strictly greater score. -/
def bestHeader (grid : Grid) (searchRows : Nat) : Int × Int :=
  (List.range (min searchRows grid.length)).foldl
    (fun best r =>
      let s : Int := scoreHeaderRow grid r
      if s > best.1 then (s, (r : Int)) else best)
    (-1, -1)

/-- The header/body choice of `read_xls_smart` (and, identically, of
`read_xls_with_positions`): returns `(chosen header row, body start row)`,
both 0-based.  The `best[1] == -1` branch is the source's fixed default
`hdr_idx = 5` (row 6 in 1-based spreadsheet terms). -/
def smartHeaderChoice (grid : Grid) (searchRows : Nat := 12) : Nat × Nat :=
  let best := bestHeader grid searchRows
  if best.2 = -1 then (5, 6)
  else
    let ridx := best.2.toNat
    let singleCols := (grid.getD ridx []).map pyStrip
    let row2 := if ridx + 1 < grid.length then grid.getD (ridx + 1) [] else []
    let twoCols := flattenTwoRows (grid.getD ridx []) row2
    let singleScore := singleCols.countP (fun v => EXPECTED_HEADERS.contains (norm v))
    let twoScore := twoCols.countP (fun v => EXPECTED_HEADERS.contains (norm v))
    if twoScore > singleScore then (ridx, ridx + 2) else (ridx, ridx + 1)

/-- Every cell of every row of the grid fails the expected-header test, i.e.
every candidate row scores 0. -/
def allScoresZero (grid : Grid) : Bool :=
  grid.all fun row => row.all fun v => !(EXPECTED_HEADERS.contains (norm v))

/-! ## excel_read.label_duplicate_columns

Operates on the column names only (the row content of the DataFrame is
carried over unchanged by the source, which sets `out.columns = new_cols` on
a copy), so it is embedded as a function on the list of column names. -/

/-- Python digit string → `int` value. -/
def digitsToNat (s : String) : Nat :=
  s.data.foldl (fun a c => a * 10 + (c.toNat - 48)) 0

/-- Does `c` have the pandas duplicate-mangling form `base + "." + digits`?
(`isinstance(c, str) and "." in c and c.split(".")[-1].isdigit()`). -/
def isDottedLeg (c : String) : Bool :=
  let parts := splitOnChar c '.'
  decide (parts.length ≥ 2) && parts.getLastD "" ≠ "" &&
    (parts.getLastD "").data.all Char.isDigit

/-- The rename applied to a dotted column: `base, idx = c.rsplit(".", 1);
f"{base} (Leg{int(idx) + 1})"`. -/
def dottedRename (c : String) : String :=
  let parts := splitOnChar c '.'
  let base := ".".intercalate parts.dropLast
  base ++ " (Leg" ++ toString (digitsToNat (parts.getLastD "") + 1) ++ ")"

/-- One iteration of the `for c in cols` loop: state is `(base_counts,
new_cols)`, with the dict `base_counts` modelled as a function. -/
def relabelStep (st : (String → Option Nat) × List String) (c : String) :
    (String → Option Nat) × List String :=
  if isDottedLeg c then
    (st.1, st.2 ++ [dottedRename c])
  else
    match st.1 c with
    | some k =>
      (fun b => if b = c then some (k + 1) else st.1 b,
       st.2 ++ [c ++ " (Leg" ++ toString (k + 1 + 1) ++ ")"])
    | none =>
      (fun b => if b = c then some 0 else st.1 b, st.2 ++ [c])

/-- `label_duplicate_columns`, restricted to its effect on the column names. -/
def label_duplicate_columns (cols : List String) : List String :=
  (cols.foldl relabelStep (fun _ => none, [])).2

/-- The name emitted for one column given the current counts (the output
component of `relabelStep`). -/
def relabelOut (m : String → Option Nat) (c : String) : String :=
  if isDottedLeg c then dottedRename c
  else
    match m c with
    | some k => c ++ " (Leg" ++ toString (k + 1 + 1) ++ ")"
    | none => c

/-- The updated counts dict after one column (the state component of
`relabelStep`). -/
def relabelCounts (m : String → Option Nat) (c : String) : String → Option Nat :=
  if isDottedLeg c then m
  else
    match m c with
    | some k => fun b => if b = c then some (k + 1) else m b
    | none => fun b => if b = c then some 0 else m b

/-- The counts dict determined by an already-processed prefix of columns:
absent for unseen labels, else (occurrences so far) − 1. -/
def countsOf (hist : List String) : String → Option Nat :=
  fun b => if hist.count b = 0 then none else some (hist.count b - 1)

/-- Modelled from the spec (claim C9's wording), for comparison with
`label_duplicate_columns`: the first occurrence of each label stays bare and
the n-th later occurrence gains the suffix `" (Leg n+1)"`. -/
def legSpecRec (hist : List String) : List String → List String
  | [] => []
  | c :: cs =>
    (if hist.count c = 0 then c
     else c ++ " (Leg" ++ toString (hist.count c + 1) ++ ")")
      :: legSpecRec (hist ++ [c]) cs

/-- The claim-side duplicate-suffixing rule on a whole column list. -/
def legSpec (cols : List String) : List String :=
  legSpecRec [] cols

/-! ## template_write.build_targets_index and yaml_apply target resolution -/

/-- `openpyxl.utils.cell.column_index_from_string` on an upper-case column
letter: base-26 value, `"A" → 1`. -/
def column_index_from_string (l : String) : Nat :=
  l.data.foldl (fun acc c => acc * 26 + (c.toNat - 64)) 0

/-- `build_targets_index`: for the destination header row (cell of column
`c+1` at list index `c`, `None` cells skipped), map each normalized label to
the 1-based columns carrying it, in left-to-right order.  The dict with
`setdefault(k, []).append(c)` is modelled as an explicitly updated function;
the inline normalization `" ".join(str(v).strip().lower().split())` is
`norm`. -/
def build_targets_index (header : List (Option String)) : String → List Nat :=
  header.enum.foldl
    (fun idx p =>
      match p.2 with
      | none => idx
      | some v =>
        let k := norm v
        fun q => if q = k then idx k ++ [p.1 + 1] else idx q)
    (fun _ => [])

/-- The left-to-right 1-based positions of the header cells normalizing to
`k` (the reference reading of `build_targets_index`'s per-key lists). -/
def matchingCols (header : List (Option String)) (k : String) : List Nat :=
  header.enum.filterMap fun p =>
    match p.2 with
    | none => none
    | some v => if norm v = k then some (p.1 + 1) else none

/-- The destination of one direct or computed mapping item: an explicit fixed
column letter, or a `(target label, 1-based occurrence)` pair. -/
inductive MappingTarget where
  | letter (l : String)
  | label (target : String) (occ : Int)
deriving DecidableEq

/-- The `(target, target_occurrence)` resolution of
`integrate_yaml_to_template`: `col_list = targets_index.get(lab, []);
if 1 <= occ <= len(col_list): cidx = col_list[occ-1]`, else no column. -/
def resolveTargetColumn (idx : String → List Nat) (target : String) (occ : Int) :
    Option Nat :=
  let colList := idx (norm target)
  if 1 ≤ occ ∧ occ ≤ colList.length then some (colList.getD (occ - 1).toNat 0)
  else none

/-- Column resolution for one item (`target_letter` branch first, then the
`target` branch). -/
def resolveItemColumn (idx : String → List Nat) : MappingTarget → Option Nat
  | .letter l => some (column_index_from_string l)
  | .label t occ => resolveTargetColumn idx t occ

/-- The per-row item loop: an unresolvable item hits `continue` (no write),
a resolvable one appends a write at its column; embedded as the list of
`(column, item)` writes in loop order. -/
def rowWrites (idx : String → List Nat) (items : List MappingTarget) :
    List (Nat × MappingTarget) :=
  items.foldl
    (fun acc item =>
      match resolveItemColumn idx item with
      | none => acc
      | some c => acc ++ [(c, item)])
    []

/-! ## yaml_apply sheet selection -/

/-- The template workbook, as far as sheet selection is concerned. -/
structure Workbook where
  sheetnames : List String
  active : String
deriving DecidableEq

/-- `ws = wb[ws_name] if ws_name in wb.sheetnames else wb.active` with
`ws_name = cfg.get("sheet")` (`None` when the key is absent, and
`None in wb.sheetnames` is false). -/
def resolveSheet (wb : Workbook) (wsName : Option String) : String :=
  match wsName with
  | some n => if n ∈ wb.sheetnames then n else wb.active
  | none => wb.active

/-! ## Numeric coercion: yaml_apply._parse_number, collateral_compare._to_float,
sensis_import._to_float

The common input domain: Python `None`, a native numeric, or text.  (Float
NaN inputs are outside the model: `ℚ` has no NaN.) -/

inductive PyVal where
  | vNone
  | vNum (q : ℚ)
  | vStr (s : String)
deriving DecidableEq

/-- Python `float(s)` on the literal fragment these coercions feed it:
optional sign, digits with an optional decimal point, optional exponent.
(`"inf"`/`"nan"`/underscore grouping are outside the modelled fragment.) -/
def parseSign : List Char → Bool × List Char
  | '+' :: cs => (false, cs)
  | '-' :: cs => (true, cs)
  | cs => (false, cs)

def takeDigits (cs : List Char) : List Char × List Char :=
  (cs.takeWhile Char.isDigit, cs.dropWhile Char.isDigit)

def digitsVal (ds : List Char) : Nat :=
  ds.foldl (fun a c => a * 10 + (c.toNat - 48)) 0

def splitMantissa (cs : List Char) : List Char × List Char × List Char :=
  let p := takeDigits cs
  match p.2 with
  | '.' :: rest =>
    let q := takeDigits rest
    (p.1, q.1, q.2)
  | _ => (p.1, [], p.2)

def parseExp (cs : List Char) : Option ℤ :=
  match cs with
  | [] => some 0
  | 'e' :: rest =>
    let sp := parseSign rest
    let dp := takeDigits sp.2
    if dp.1 = [] ∨ dp.2 ≠ [] then none
    else some (if sp.1 then -(digitsVal dp.1 : ℤ) else (digitsVal dp.1 : ℤ))
  | 'E' :: rest =>
    let sp := parseSign rest
    let dp := takeDigits sp.2
    if dp.1 = [] ∨ dp.2 ≠ [] then none
    else some (if sp.1 then -(digitsVal dp.1 : ℤ) else (digitsVal dp.1 : ℤ))
  | _ => none

def pyFloat (s : String) : Option ℚ :=
  let sp := parseSign s.data
  let m := splitMantissa sp.2
  if m.1 = [] ∧ m.2.1 = [] then none
  else
    match parseExp m.2.2 with
    | none => none
    | some e =>
      let mant : ℚ := (digitsVal m.1 : ℚ) + (digitsVal m.2.1 : ℚ) / ((10 : ℚ) ^ m.2.1.length)
      let v := mant * (10 : ℚ) ^ e
      some (if sp.1 then -v else v)

/-- Remove every occurrence of one character (`str.replace(ch, "")`). -/
def removeChar (s : String) (ch : Char) : String :=
  ⟨s.data.filter (fun c => c ≠ ch)⟩

/-- `yaml_apply._parse_number`: strip, empty ⇒ null, NBSP → space, drop
spaces, drop apostrophes, every comma → dot, then `float`; any failure is
caught and becomes null. -/
def parse_number (x : PyVal) : Option ℚ :=
  match x with
  | .vNone => none
  | .vNum q => some q
  | .vStr s0 =>
    let s1 := pyStrip s0
    if s1 = "" then none
    else
      let s2 := replaceChar s1 ' ' ' '
      let s3 := removeChar s2 ' '
      let s4 := removeChar s3 '\x27'
      pyFloat (replaceChar s4 ',' '.')

/-- `sensis_import._to_float`: strip then NBSP → space, empty ⇒ null, drop
spaces, drop apostrophes, every comma → dot, then `float`. -/
def sensis_to_float (x : PyVal) : Option ℚ :=
  match x with
  | .vNone => none
  | .vNum q => some q
  | .vStr s0 =>
    let t1 := replaceChar (pyStrip s0) ' ' ' '
    if t1 = "" then none
    else
      let t2 := removeChar t1 ' '
      let t3 := removeChar t2 '\x27'
      pyFloat (replaceChar t3 ',' '.')

/-- `collateral_compare._to_float`: drop NBSP, drop spaces, strip, empty ⇒
null; a single comma with no dot is a decimal comma (→ dot), otherwise all
commas are thousands separators (dropped); then `float`. -/
def collat_to_float (x : PyVal) : Option ℚ :=
  match x with
  | .vNone => none
  | .vNum q => some q
  | .vStr s0 =>
    let cleaned := pyStrip (removeChar (removeChar s0 ' ') ' ')
    if cleaned = "" then none
    else
      let cleaned2 :=
        if cleaned.data.count ',' = 1 ∧ cleaned.data.count '.' = 0
        then replaceChar cleaned ',' '.'
        else removeChar cleaned ','
      pyFloat cleaned2

/-! ## data_rules.valid_code_mask and perimeter.build_perimeter -/

/-- One DataFrame cell for the perimeter model: a real missing value or text.
(Native numeric cells play no role in the claims settled on this model.) -/
inductive Cell where
  | na
  | txt (s : String)
deriving DecidableEq, BEq

/-- Python `str(cell)` as `astype(str)` applies it. -/
def pyStr : Cell → String
  | .na => "nan"
  | .txt s => s

/-- The sentinel blacklist of `_INVALID_CODE_RE`
(`(?i)^(nan|none|null|na|n/?a|#n/?a|-|—)$`), expanded to the finite set of
strings the regex full-matches, compared lower-cased. -/
def badSentinel (t : String) : Bool :=
  ["nan", "none", "null", "na", "n/a", "#na", "#n/a", "-", "—"].contains t

/-- `data_rules.valid_code_mask`, per cell: real NaN excluded; otherwise
`str`-ify, NBSP → space, strip, and exclude empties and sentinels. -/
def valid_code_mask (c : Cell) : Bool :=
  match c with
  | .na => false
  | .txt s =>
    let t := pyStrip (replaceChar s ' ' ' ')
    !(t = "" || badSentinel (pyLower t))

/-- A typed table: named columns and rows of cells.  (Tables reaching
`build_perimeter` have been through `label_duplicate_columns`, so duplicate
column names within one table are outside the model.) -/
structure Table where
  cols : List String
  rows : List (List Cell)
deriving DecidableEq

/-- Value of column `c` in one row of table `t` (missing column ⇒ NaN, as
`pd.concat` alignment produces). -/
def cellAt (t : Table) (row : List Cell) (c : String) : Cell :=
  match t.cols.indexOf? c with
  | some i => row.getD i .na
  | none => .na

/-- `pd.concat(frames, ignore_index=True, sort=False)`: union of the column
names in order of first appearance; rows aligned by name, absent columns
filled with NaN. -/
def concatTables (frames : List Table) : Table :=
  let cols := frames.foldl (fun acc t => acc ++ t.cols.filter (fun c => !acc.contains c)) []
  ⟨cols, (frames.map fun t => t.rows.map fun r => cols.map (cellAt t r)).flatten⟩

/-- `excel_read.get_col`: first column whose normalization equals the
normalized logical name (`None` when absent; the `required=True` caller turns
that into a raised `KeyError`). -/
def getCol (t : Table) (logical : String) : Option String :=
  t.cols.find? (fun c => norm c == norm logical)

/-- The `meta` dict returned by `build_perimeter`. -/
structure PerimeterMeta where
  dedup_keys : List String
  dedup_before : Nat
  dedup_after : Nat
deriving DecidableEq

/-- `drop_duplicates(subset)` keeping first occurrences, keyed on the row
projection at the given column indices. -/
def dedupBy (keyIdx : List Nat) (rows : List (List Cell)) : List (List Cell) :=
  (rows.foldl
    (fun (st : List (List Cell) × List (List Cell)) r =>
      let key := keyIdx.map fun i => r.getD i .na
      if st.2.contains key then st else (st.1 ++ [r], st.2 ++ [key]))
    ([], [])).1

/-- `perimeter.build_perimeter`: concat, required code/class columns (a
missing one raises `KeyError`, modelled as `.error`), Code-DI filter, output
projection (`Code DI`, `Classif DI`, `Class`, then id and meta columns), and
dedup by the id columns when any were found. -/
def build_perimeter (frames : List Table) : Except String (Table × PerimeterMeta) :=
  let raw := concatTables frames
  match getCol raw "Custom Attribute5 Value" with
  | none => .error "Colonne introuvable: Custom Attribute5 Value"
  | some colCode =>
    match getCol raw "Class" with
    | none => .error "Colonne introuvable: Class"
    | some colClass =>
      let idCols := ["#Ticket", "Trade ID", "External Id"].filterMap (getCol raw)
      let metaCols := idCols ++ ["Counterparty", "Currency"].filterMap (getCol raw)
      let outCols := ["Code DI", "Classif DI", "Class"] ++ metaCols
      let peri := raw.rows.filter fun r => valid_code_mask (cellAt raw r colCode)
      let outRows := peri.map fun r =>
        [Cell.txt (pyStrip (pyStr (cellAt raw r colCode))),
         cellAt raw r colClass, cellAt raw r colClass]
          ++ metaCols.map (cellAt raw r)
      let before := outRows.length
      let keyIdx := (List.range idCols.length).map (3 + ·)
      let deduped := if idCols.isEmpty then outRows else dedupBy keyIdx outRows
      .ok (⟨outCols, deduped⟩, ⟨idCols, before, deduped.length⟩)

/-- Did the run succeed? -/
def exceptIsOk {ε α : Type} : Except ε α → Bool
  | .ok _ => true
  | .error _ => false

/-! ## collateral_compare: label normalization, aggregation and the
reconciliation outer join -/

/-- Python `str.upper()` on the basic latin letters (matching `pyLower`). -/
def asciiToUpper (c : Char) : Char :=
  match c with
  | 'a' => 'A' | 'b' => 'B' | 'c' => 'C' | 'd' => 'D' | 'e' => 'E' | 'f' => 'F'
  | 'g' => 'G' | 'h' => 'H' | 'i' => 'I' | 'j' => 'J' | 'k' => 'K' | 'l' => 'L'
  | 'm' => 'M' | 'n' => 'N' | 'o' => 'O' | 'p' => 'P' | 'q' => 'Q' | 'r' => 'R'
  | 's' => 'S' | 't' => 'T' | 'u' => 'U' | 'v' => 'V' | 'w' => 'W' | 'x' => 'X'
  | 'y' => 'Y' | 'z' => 'Z'
  | c => c

def pyUpper (s : String) : String :=
  ⟨s.data.map asciiToUpper⟩

/-- An alias table as `parse_alias_mapping` produces it: casefolded alias →
canonical display label. -/
abbrev AliasMap := List (String × String)

/-- `_clean_label`: `None` stays `None`; text is stripped, an empty result is
`None`, else internal whitespace is collapsed (`" ".join(text.split())`). -/
def clean_label (v : Option String) : Option String :=
  match v with
  | none => none
  | some s =>
    let text := pyStrip s
    if text = "" then none
    else some (" ".intercalate (pyTokens text))

/-- `normalize_label`: clean, then the alias table (casefold lookup, empty
canonical is falsy), unmapped labels pass through upper-cased. -/
def normalize_label (mapping : AliasMap) (v : Option String) : Option String :=
  match clean_label v with
  | none => none
  | some c =>
    match mapping.lookup (pyLower c) with
    | some canon => if canon = "" then some (pyUpper c) else some canon
    | none => some (pyUpper c)

/-- One row of the template-side aggregate (`aggregate_template_mtm`
output). -/
structure TmplRow where
  counterparty : Option String
  classifDI : Option String
  mtmGam : Option ℚ
  mtmCp : Option ℚ
deriving DecidableEq

/-- One row of the collateral-report summary (`load_collateral_summary`
output). -/
structure CollRow where
  counterparty : Option String
  typologie : Option String
  mtmGam : Option ℚ
  mtmCp : Option ℚ
deriving DecidableEq

/-- The normalized join key `(Norm Counterparty, Norm Typologie)`. -/
abbrev ReconKey := String × String

/-- Codepoint-lexicographic comparison, Python's `<` on strings (what pandas
sorts string keys by). -/
def charListLt : List Char → List Char → Bool
  | [], [] => false
  | [], _ :: _ => true
  | _ :: _, [] => false
  | a :: as, b :: bs =>
    if a.toNat < b.toNat then true
    else if b.toNat < a.toNat then false
    else charListLt as bs

def keyLeB (a b : ReconKey) : Bool :=
  if a.1 = b.1 then !(charListLt b.2.data a.2.data)
  else charListLt a.1.data b.1.data

/-- Normalize both key parts of a template row and drop rows with a null key
part (the `dropna(subset=["Norm Counterparty", "Norm Typologie"])`). -/
def tmplNormRows (aC aT : AliasMap) (rows : List TmplRow) :
    List (ReconKey × TmplRow) :=
  rows.filterMap fun r =>
    match normalize_label aC r.counterparty, normalize_label aT r.classifDI with
    | some nc, some nt => some ((nc, nt), r)
    | _, _ => none

def collNormRows (aC aT : AliasMap) (rows : List CollRow) :
    List (ReconKey × CollRow) :=
  rows.filterMap fun r =>
    match normalize_label aC r.counterparty, normalize_label aT r.typologie with
    | some nc, some nt => some ((nc, nt), r)
    | _, _ => none

/-- `_first_notna`: the first non-null value of a column within a group. -/
def first_notna {α : Type} (l : List (Option α)) : Option α :=
  l.findSome? id

/-- `_sum_notna`: the sum of the non-null values (0.0 when there are none). -/
def sum_notna (l : List (Option ℚ)) : ℚ :=
  (l.filterMap id).sum

/-- The distinct group keys in ascending order (pandas `groupby` sorts group
keys; ties cannot occur since keys are deduplicated). -/
def groupKeys {α : Type} (pairs : List (ReconKey × α)) : List ReconKey :=
  List.insertionSort (fun a b => keyLeB a b = true) (pairs.map Prod.fst).dedup

/-- One aggregated side of the join: per key, first non-null display labels
and summed monetary columns. -/
structure AggRec where
  text1 : Option String
  text2 : Option String
  mtmGam : ℚ
  mtmCp : ℚ
deriving DecidableEq

/-- `_aggregate_by_norm` for the template side (`text_columns =
("Counterparty", "Classif DI")`). -/
def aggTmpl (aC aT : AliasMap) (rows : List TmplRow) :
    List (ReconKey × AggRec) :=
  let nr := tmplNormRows aC aT rows
  (groupKeys nr).map fun k =>
    let group := (nr.filter fun p => p.1 == k).map Prod.snd
    (k, ⟨first_notna (group.map (·.counterparty)),
         first_notna (group.map (·.classifDI)),
         sum_notna (group.map (·.mtmGam)),
         sum_notna (group.map (·.mtmCp))⟩)

/-- `_aggregate_by_norm` for the collateral side (`text_columns =
("Counterparty", "Typologie")`). -/
def aggColl (aC aT : AliasMap) (rows : List CollRow) :
    List (ReconKey × AggRec) :=
  let nr := collNormRows aC aT rows
  (groupKeys nr).map fun k =>
    let group := (nr.filter fun p => p.1 == k).map Prod.snd
    (k, ⟨first_notna (group.map (·.counterparty)),
         first_notna (group.map (·.typologie)),
         sum_notna (group.map (·.mtmGam)),
         sum_notna (group.map (·.mtmCp))⟩)

/-- One output row of `build_collateral_comparison`, with the exact column
set of `ordered_cols`. -/
structure ReconRow where
  normCounterparty : String
  normTypologie : String
  counterpartyTemplate : Option String
  classifDI : Option String
  mtmGamTemplate : ℚ
  mtmCpTemplate : ℚ
  counterpartyCollateral : Option String
  typologie : Option String
  mtmGamCollateral : ℚ
  mtmCpCollateral : ℚ
  ecartGam : ℚ
  ecartCp : ℚ
  presentTemplate : Bool
  presentCollateral : Bool
deriving DecidableEq

/-- The merged row for one key of the outer join: absent side ⇒ null labels,
`fillna(0.0)` on the four monetary columns, discrepancies template −
collateral, presence flags from the label columns' `notna()`. -/
def reconRowFor (tagg cagg : List (ReconKey × AggRec)) (k : ReconKey) : ReconRow :=
  let tc := tagg.lookup k
  let cc := cagg.lookup k
  let gamT := match tc with | some a => a.mtmGam | none => 0
  let cpT := match tc with | some a => a.mtmCp | none => 0
  let gamC := match cc with | some a => a.mtmGam | none => 0
  let cpC := match cc with | some a => a.mtmCp | none => 0
  { normCounterparty := k.1
    normTypologie := k.2
    counterpartyTemplate := tc.bind (·.text1)
    classifDI := tc.bind (·.text2)
    mtmGamTemplate := gamT
    mtmCpTemplate := cpT
    counterpartyCollateral := cc.bind (·.text1)
    typologie := cc.bind (·.text2)
    mtmGamCollateral := gamC
    mtmCpCollateral := cpC
    ecartGam := gamT - gamC
    ecartCp := cpT - cpC
    presentTemplate := (tc.bind (·.text1)).isSome
    presentCollateral := (cc.bind (·.text1)).isSome }

/-- `build_collateral_comparison`: aggregate both sides, outer-join on the
key (both sides have unique keys after aggregation, so the join has exactly
one row per key of the union), and sort by the key ascending (the final
`sort_values(..., kind="mergesort")`; keys are unique, so stability adds
nothing). -/
def build_collateral_comparison (tmplRows : List TmplRow) (collRows : List CollRow)
    (aC aT : AliasMap) : List ReconRow :=
  if tmplRows = [] ∧ collRows = [] then []
  else
    let tagg := aggTmpl aC aT tmplRows
    let cagg := aggColl aC aT collRows
    let allKeys :=
      List.insertionSort (fun a b => keyLeB a b = true)
        ((cagg.map Prod.fst ++ tagg.map Prod.fst).dedup)
    allKeys.map (reconRowFor tagg cagg)

/-! ### Claims C1 and C2 -/

/-- C1, as stated ("no operation outside that grammar is executable through
the configuration"), is false: the source hands the configured string to
Python `eval`, so the full Python expression language is executable.  Concrete
counterexample: the expression `7 // 2` is outside the claimed
`+ - * /`-and-variables grammar, yet it evaluates successfully (to 3). -/
theorem c1_counterexample :
    evalExpr (.floordiv (.num 7) (.num 2)) [] = some 3 ∧
    arithOnly (.floordiv (.num 7) (.num 2)) = false := by
  constructor
  · show (if (2 : ℚ) = 0 then none else some ((⌊(7 : ℚ) / 2⌋ : ℤ) : ℚ)) = some 3
    norm_num
  · rfl

/-- C1 (amended): evaluation of a computed mapping's expression runs with the
builtins stripped and an environment holding only the declared variables (plus
the helper `_div` and `None`), so a reference to any name outside the declared
variables yields null; but the expression language is not limited to the
arithmetic grammar: Python operations outside `+ - * /` (for example `//`)
remain executable through the configuration. -/
theorem c1_eval_env_restricted_but_grammar_unrestricted :
    (∀ (env : Env) (x : String), env.lookup x = none → evalExpr (.var x) env = none) ∧
    evalExpr (.floordiv (.num 7) (.num 2)) [] = some 3 ∧
    arithOnly (.floordiv (.num 7) (.num 2)) = false := by
  refine ⟨fun env x h => ?_, c1_counterexample.1, c1_counterexample.2⟩
  simp [evalExpr, h]

/-- Witness for C1's amended theorem at a concrete environment: the undeclared
name `z` evaluates to null. -/
theorem c1_witness :
    evalExpr (.var "z") [("a", some 1)] = none :=
  c1_eval_env_restricted_but_grammar_unrestricted.1 [("a", some 1)] "z" rfl

/-- C2: expression evaluation null-propagates: division by null or zero yields
null; every arithmetic operator with a null operand yields null; an unknown
variable name or a string that fails to parse yields null; and the three
concrete `"a / b"` cases give null, null and 2 respectively. -/
theorem c2_null_propagation :
    (∀ (env : Env) (a b : PyExpr),
        evalExpr b env = none ∨ evalExpr b env = some 0 ∨ evalExpr a env = none →
        evalExpr (.div a b) env = none) ∧
    (∀ (env : Env) (a b : PyExpr),
        evalExpr a env = none ∨ evalExpr b env = none →
        evalExpr (.add a b) env = none ∧ evalExpr (.sub a b) env = none ∧
        evalExpr (.mul a b) env = none ∧ evalExpr (.div a b) env = none) ∧
    (∀ (env : Env) (a : PyExpr),
        evalExpr a env = none → evalExpr (.neg a) env = none) ∧
    (∀ (env : Env) (x : String), env.lookup x = none → evalExpr (.var x) env = none) ∧
    (∀ env : Env, evalExprTop none env = none) ∧
    evalExpr (.div (.var "a") (.var "b")) [("a", none), ("b", some 5)] = none ∧
    evalExpr (.div (.var "a") (.var "b")) [("a", some 10), ("b", some 0)] = none ∧
    evalExpr (.div (.var "a") (.var "b")) [("a", some 10), ("b", some 5)] = some 2 := by
  refine ⟨fun env a b h => ?_, fun env a b h => ?_, fun env a h => ?_,
    fun env x h => ?_, fun env => rfl, ?_, ?_, ?_⟩
  · rcases h with h | h | h
    · cases ha : evalExpr a env <;> simp [evalExpr, ha, h]
    · cases ha : evalExpr a env <;> simp [evalExpr, ha, h]
    · simp [evalExpr, h]
  · rcases h with h | h
    · simp [evalExpr, h]
    · cases ha : evalExpr a env <;> simp [evalExpr, ha, h]
  · simp [evalExpr, h]
  · simp [evalExpr, h]
  · rfl
  · show (if (0 : ℚ) = 0 then none else some ((10 : ℚ) / 0)) = none
    norm_num
  · show (if (5 : ℚ) = 0 then none else some ((10 : ℚ) / 5)) = some 2
    norm_num

/-- Witness for C2 at concrete inputs: division by a zero-valued expression
yields null. -/
theorem c2_witness :
    evalExpr (.div (.num 1) (.num 0)) [] = none :=
  c2_null_propagation.1 [] (.num 1) (.num 0) (Or.inr (Or.inl rfl))

/-! ### Claim C3

Helper lemmas: normalization ignores a preliminary strip, so a row's
single-header score equals its raw score. -/

theorem isPySpace_asciiToLower (c : Char) :
    isPySpace (asciiToLower c) = isPySpace c := by
  unfold asciiToLower
  split <;> rfl

theorem tokensAux_spaces :
    ∀ (ws : List Char), (∀ c ∈ ws, isPySpace c = true) →
      ∀ cur, tokensAux ws cur = tokensAux [] cur := by
  intro ws
  induction ws with
  | nil => intro _ _; rfl
  | cons c cs ih =>
    intro hws cur
    have hc : isPySpace c = true := hws c (by simp)
    have hcs : ∀ x ∈ cs, isPySpace x = true := fun x hx => hws x (by simp [hx])
    show tokensAux (c :: cs) cur = tokensAux [] cur
    unfold tokensAux
    rw [if_pos hc]
    by_cases hcur : cur = []
    · rw [if_pos hcur, ih hcs [], hcur]
      rfl
    · rw [if_neg hcur, ih hcs [], if_neg hcur]
      rfl

theorem tokensAux_append_spaces :
    ∀ (l ws : List Char), (∀ c ∈ ws, isPySpace c = true) →
      ∀ cur, tokensAux (l ++ ws) cur = tokensAux l cur := by
  intro l
  induction l with
  | nil =>
    intro ws hws cur
    rw [List.nil_append, tokensAux_spaces ws hws cur]
  | cons c cs ih =>
    intro ws hws cur
    show tokensAux (c :: (cs ++ ws)) cur = tokensAux (c :: cs) cur
    unfold tokensAux
    cases hc : isPySpace c <;> simp only [Bool.false_eq_true, if_false, if_true]
    · exact ih ws hws (c :: cur)
    · by_cases hcur : cur = []
      · rw [if_pos hcur, if_pos hcur, ih ws hws []]
      · rw [if_neg hcur, if_neg hcur, ih ws hws []]

theorem tokensAux_dropWhile (l : List Char) :
    tokensAux (l.dropWhile isPySpace) [] = tokensAux l [] := by
  induction l with
  | nil => rfl
  | cons c cs ih =>
    rw [List.dropWhile_cons]
    cases hc : isPySpace c
    · rw [if_neg (by simp)]
    · rw [if_pos rfl, ih]
      show _ = tokensAux (c :: cs) []
      unfold tokensAux
      rw [if_pos hc, if_pos rfl]
      rw [← tokensAux.eq_def]

theorem tokensAux_pyStripList (l : List Char) :
    tokensAux (pyStripList l) [] = tokensAux l [] := by
  unfold pyStripList
  rw [← tokensAux_dropWhile l]
  have hdecomp :
      l.dropWhile isPySpace =
        ((l.dropWhile isPySpace).reverse.dropWhile isPySpace).reverse
          ++ ((l.dropWhile isPySpace).reverse.takeWhile isPySpace).reverse := by
    conv_lhs =>
      rw [← List.reverse_reverse (l.dropWhile isPySpace),
        ← List.takeWhile_append_dropWhile (p := isPySpace)
          (l := (l.dropWhile isPySpace).reverse)]
    rw [List.reverse_append]
  conv_rhs => rw [hdecomp]
  rw [tokensAux_append_spaces]
  intro c hc
  rw [List.mem_reverse] at hc
  exact List.mem_takeWhile_imp hc

theorem pyStripList_map_lower (l : List Char) :
    pyStripList (l.map asciiToLower) = (pyStripList l).map asciiToLower := by
  have hcomp : (isPySpace ∘ asciiToLower) = isPySpace :=
    funext isPySpace_asciiToLower
  unfold pyStripList
  rw [List.dropWhile_map, hcomp, ← List.map_reverse, List.dropWhile_map, hcomp,
    ← List.map_reverse]

/-- Normalization is blind to a preliminary strip (`_norm` strips anyway). -/
theorem norm_pyStrip (s : String) : norm (pyStrip s) = norm s := by
  show " ".intercalate ((tokensAux ((pyStripList s.data).map asciiToLower) []).map
      fun cs => (⟨cs⟩ : String)) = _
  rw [← pyStripList_map_lower, tokensAux_pyStripList]
  rfl

/-- An all-zero grid scores zero at every row index. -/
theorem scoreHeaderRow_eq_zero {grid : Grid} (h : allScoresZero grid = true)
    (r : Nat) : scoreHeaderRow grid r = 0 := by
  unfold scoreHeaderRow
  rw [List.countP_eq_zero]
  intro a ha
  rw [List.mem_map] at ha
  obtain ⟨v, hv, rfl⟩ := ha
  unfold allScoresZero at h
  rw [List.all_eq_true] at h
  by_cases hr : r < grid.length
  · have hrow : grid.getD r [] ∈ grid := by
      rw [List.getD_eq_getElem _ _ hr]
      exact List.getElem_mem hr
    have hall := h _ hrow
    rw [List.all_eq_true] at hall
    have hv' := hall v hv
    simpa using hv'
  · rw [List.getD_eq_default _ _ (by omega)] at hv
    simp at hv

/-- The search fold never moves off a best of score 0 when all remaining
candidates score 0. -/
theorem bestHeader_foldl_stays (grid : Grid) :
    ∀ (l : List Nat) (b : Int × Int), (∀ r ∈ l, scoreHeaderRow grid r = 0) →
      b.1 = 0 →
      l.foldl
        (fun best r =>
          let s : Int := scoreHeaderRow grid r
          if s > best.1 then (s, (r : Int)) else best) b = b := by
  intro l
  induction l with
  | nil => intro b _ _; rfl
  | cons x xs ih =>
    intro b hl hb
    rw [List.foldl_cons]
    have hx : scoreHeaderRow grid x = 0 := hl x (by simp)
    have hstep :
        (let s : Int := scoreHeaderRow grid x
          if s > b.1 then (s, (x : Int)) else b) = b := by
      simp only [hx, hb, Nat.cast_zero]
      norm_num
    rw [hstep]
    exact ih b (fun r hr => hl r (by simp [hr])) hb

/-- On a nonempty all-zero grid the search settles on `(score 0, row 0)`:
row 0 already beats the initial `-1` and nothing later exceeds 0. -/
theorem bestHeader_all_zero {grid : Grid} (hne : grid ≠ [])
    (h : allScoresZero grid = true) (searchRows : Nat) (hs : 0 < searchRows) :
    bestHeader grid searchRows = (0, 0) := by
  unfold bestHeader
  have hlen : 0 < grid.length := List.length_pos.mpr hne
  obtain ⟨n, hn⟩ : ∃ n, min searchRows grid.length = n + 1 :=
    ⟨min searchRows grid.length - 1, by omega⟩
  rw [hn, List.range_succ_eq_map, List.foldl_cons]
  have hstep :
      (let s : Int := scoreHeaderRow grid 0
        if s > (-1 : Int × Int).1 then (s, ((0 : Nat) : Int)) else (-1, -1)) =
        ((0 : Int), (0 : Int)) := by
    simp only [scoreHeaderRow_eq_zero h 0, Nat.cast_zero]
    norm_num
  show List.foldl _
      (let s : Int := scoreHeaderRow grid 0
        if s > (-1 : Int) then (s, ((0 : Nat) : Int)) else (-1, -1)) _ = _
  have h0 : scoreHeaderRow grid 0 = 0 := scoreHeaderRow_eq_zero h 0
  simp only [h0, Nat.cast_zero]
  rw [if_pos (by norm_num)]
  exact bestHeader_foldl_stays grid _ _
    (fun r _ => scoreHeaderRow_eq_zero h r) rfl

/-- No member cell of an all-zero grid matches an expected header after a
strip. -/
theorem strip_mem_not_expected {grid : Grid} (h : allScoresZero grid = true)
    {row : List String} (hrow : row ∈ grid) {v : String} (hv : v ∈ row) :
    EXPECTED_HEADERS.contains (norm (pyStrip v)) = false := by
  rw [norm_pyStrip]
  unfold allScoresZero at h
  rw [List.all_eq_true] at h
  have hall := h row hrow
  rw [List.all_eq_true] at hall
  simpa using hall v hv

/-- No cell of an all-zero grid, read through `getD` and stripped, matches an
expected header. -/
theorem strip_getD_not_expected {grid : Grid} (h : allScoresZero grid = true)
    {row : List String} (hrow : row ∈ grid ∨ row = []) (i : Nat) :
    EXPECTED_HEADERS.contains (norm (pyStrip (row.getD i ""))) = false := by
  have hempty : EXPECTED_HEADERS.contains (norm (pyStrip "")) = false := by decide
  by_cases hi : i < row.length
  · rcases hrow with hrow | hrow
    · exact strip_mem_not_expected h hrow
        (by rw [List.getD_eq_getElem _ _ hi]; exact List.getElem_mem hi)
    · rw [hrow] at hi
      simp at hi
  · rw [List.getD_eq_default _ _ (by omega)]
    exact hempty

/-- A stripped all-zero row has single-header score 0. -/
theorem countP_strip_zero {grid : Grid} (h : allScoresZero grid = true)
    {row : List String} (hrow : row ∈ grid ∨ row = []) :
    (row.map pyStrip).countP (fun v => EXPECTED_HEADERS.contains (norm v)) = 0 := by
  rw [List.countP_eq_zero]
  intro a ha
  rw [List.mem_map] at ha
  obtain ⟨v, hv, rfl⟩ := ha
  rcases hrow with hrow | hrow
  · simpa using strip_mem_not_expected h hrow hv
  · rw [hrow] at hv
    simp at hv

/-- The two-row flattening of all-zero rows has two-header score 0. -/
theorem countP_flatten_zero {grid : Grid} (h : allScoresZero grid = true)
    {r1 r2 : List String} (h1 : r1 ∈ grid ∨ r1 = []) (h2 : r2 ∈ grid ∨ r2 = []) :
    (flattenTwoRows r1 r2).countP
      (fun v => EXPECTED_HEADERS.contains (norm v)) = 0 := by
  rw [List.countP_eq_zero]
  intro a ha
  unfold flattenTwoRows at ha
  rw [List.mem_map] at ha
  obtain ⟨i, _, rfl⟩ := ha
  simp only []
  by_cases hb : pyStrip (r2.getD i "") = ""
  · rw [if_pos hb]
    simpa using strip_getD_not_expected h h1 i
  · rw [if_neg hb]
    simpa using strip_getD_not_expected h h2 i

/-- C3 (amended): the fixed default header row (row 6, 1-based) is used only
when there are no candidate rows at all; on every nonempty grid in which all
rows score 0 expected-header-token matches, the resolver instead picks row 0
(the earliest best-scoring row, since a score of 0 beats the initial best of
−1) as the header, with the body starting at row 1. -/
theorem c3_all_zero_grid_picks_row_zero :
    ∀ grid : Grid, grid ≠ [] → allScoresZero grid = true →
      smartHeaderChoice grid 12 = (0, 1) := by
  intro grid hne h
  unfold smartHeaderChoice
  rw [bestHeader_all_zero hne h 12 (by norm_num)]
  have hne' : ¬((0 : Int), (0 : Int)).2 = -1 := by norm_num
  rw [if_neg hne']
  simp only [Int.toNat_zero]
  have hrow0 : grid.getD 0 [] ∈ grid ∨ grid.getD 0 [] = [] := by
    left
    have hlen : 0 < grid.length := List.length_pos.mpr hne
    rw [List.getD_eq_getElem _ _ hlen]
    exact List.getElem_mem hlen
  have hrow1 : (if 0 + 1 < grid.length then grid.getD (0 + 1) [] else []) ∈ grid ∨
      (if 0 + 1 < grid.length then grid.getD (0 + 1) [] else []) = [] := by
    split
    · left
      rename_i hlt
      rw [List.getD_eq_getElem _ _ hlt]
      exact List.getElem_mem hlt
    · right; rfl
  rw [countP_strip_zero h hrow0, countP_flatten_zero h hrow0 hrow1]
  norm_num

/-- The concrete all-zero grid refuting C3 as stated: eight rows of
non-matching cells; the resolver picks header row 0 with body from row 1,
not the claimed fixed default header row 5 (row 6, 1-based) with body from
row 6. -/
def c3Grid : Grid := List.replicate 8 ["x", "y"]

/-- C3, as stated, is false: on an all-zero-scoring nonempty grid the chosen
header row is row 0, not the fixed default row 6 (1-based). -/
theorem c3_counterexample :
    allScoresZero c3Grid = true ∧ smartHeaderChoice c3Grid 12 = (0, 1) ∧
      smartHeaderChoice c3Grid 12 ≠ (5, 6) := by
  refine ⟨by decide, by decide, ?_⟩
  intro hcontra
  rw [show smartHeaderChoice c3Grid 12 = (0, 1) from by decide] at hcontra
  simp at hcontra

/-- Witness for C3's amended theorem at a concrete grid. -/
theorem c3_witness :
    smartHeaderChoice [["foo"], ["bar"]] 12 = (0, 1) :=
  c3_all_zero_grid_picks_row_zero [["foo"], ["bar"]] (by decide) (by decide)

/-! ### Claims C9 and C10 -/

theorem relabelStep_eq (st : (String → Option Nat) × List String) (c : String) :
    relabelStep st c = (relabelCounts st.1 c, st.2 ++ [relabelOut st.1 c]) := by
  unfold relabelStep relabelCounts relabelOut
  by_cases h : isDottedLeg c
  · simp [h]
  · simp only [h, Bool.false_eq_true, if_false]
    cases st.1 c <;> simp

/-- The emitted names accumulate on the right of the running output. -/
theorem relabel_foldl_out :
    ∀ (cols : List String) (m : String → Option Nat) (out : List String),
      (cols.foldl relabelStep (m, out)).2 = out ++ (cols.foldl relabelStep (m, [])).2 := by
  intro cols
  induction cols with
  | nil => intro m out; simp
  | cons c cs ih =>
    intro m out
    rw [List.foldl_cons, List.foldl_cons, relabelStep_eq, relabelStep_eq]
    rw [ih (relabelCounts m c) (out ++ [relabelOut m c]),
      ih (relabelCounts m c) ([] ++ [relabelOut m c])]
    simp

/-- Reduction lemmas for one non-dotted step of the relabelling fold. -/
theorem relabelCounts_none (m : String → Option Nat) (c : String)
    (hd : isDottedLeg c = false) (hm : m c = none) :
    relabelCounts m c = fun b => if b = c then some 0 else m b := by
  unfold relabelCounts
  rw [hd, hm]
  rfl

theorem relabelCounts_some (m : String → Option Nat) (c : String) (k : Nat)
    (hd : isDottedLeg c = false) (hm : m c = some k) :
    relabelCounts m c = fun b => if b = c then some (k + 1) else m b := by
  unfold relabelCounts
  rw [hd, hm]
  rfl

theorem relabelOut_none (m : String → Option Nat) (c : String)
    (hd : isDottedLeg c = false) (hm : m c = none) : relabelOut m c = c := by
  unfold relabelOut
  rw [hd, hm]
  rfl

theorem relabelOut_some (m : String → Option Nat) (c : String) (k : Nat)
    (hd : isDottedLeg c = false) (hm : m c = some k) :
    relabelOut m c = c ++ " (Leg" ++ toString (k + 1 + 1) ++ ")" := by
  unfold relabelOut
  rw [hd, hm]
  rfl

theorem countsOf_eq_none (hist : List String) (c : String)
    (hc : hist.count c = 0) : countsOf hist c = none := by
  simp [countsOf, hc]

theorem countsOf_eq_some (hist : List String) (c : String)
    (hc : hist.count c ≠ 0) : countsOf hist c = some (hist.count c - 1) := by
  simp [countsOf, hc]

/-- Processing one non-dotted column advances the counts dict exactly as the
occurrence history does. -/
theorem relabelCounts_countsOf (hist : List String) (c : String)
    (hd : isDottedLeg c = false) :
    relabelCounts (countsOf hist) c = countsOf (hist ++ [c]) := by
  have happ : ∀ b : String, b ≠ c → (hist ++ [c]).count b = hist.count b := by
    intro b hb
    rw [List.count_append, List.count_cons]
    simp [Ne.symm hb]
  by_cases hc : hist.count c = 0
  · rw [relabelCounts_none _ _ hd (countsOf_eq_none hist c hc)]
    funext b
    by_cases hb : b = c
    · subst hb
      rw [if_pos rfl]
      have h1 : (hist ++ [b]).count b = 1 := by
        rw [List.count_append]
        simp [hc]
      simp [countsOf, h1]
    · rw [if_neg hb]
      simp [countsOf, happ b hb]
  · rw [relabelCounts_some _ _ _ hd (countsOf_eq_some hist c hc)]
    funext b
    by_cases hb : b = c
    · subst hb
      rw [if_pos rfl]
      have h1 : (hist ++ [b]).count b = hist.count b + 1 := by
        rw [List.count_append]
        simp
      rw [countsOf_eq_some _ _ (by rw [h1]; omega), h1]
      congr 1
      omega
    · rw [if_neg hb]
      simp [countsOf, happ b hb]

/-- On dotted-free columns the source fold reproduces the claim-side rule,
relative to any processed prefix `hist`. -/
theorem relabel_eq_legSpecRec :
    ∀ (cols : List String) (hist : List String),
      (∀ c ∈ cols, isDottedLeg c = false) →
      (cols.foldl relabelStep (countsOf hist, [])).2 = legSpecRec hist cols := by
  intro cols
  induction cols with
  | nil => intro hist _; rfl
  | cons c cs ih =>
    intro hist hnd
    have hdc : isDottedLeg c = false := hnd c (by simp)
    have hdcs : ∀ x ∈ cs, isDottedLeg x = false := fun x hx => hnd x (by simp [hx])
    rw [List.foldl_cons, relabelStep_eq, relabel_foldl_out,
      relabelCounts_countsOf hist c hdc, ih (hist ++ [c]) hdcs]
    show [relabelOut (countsOf hist) c] ++ legSpecRec (hist ++ [c]) cs =
      (if hist.count c = 0 then c
        else c ++ " (Leg" ++ toString (hist.count c + 1) ++ ")")
        :: legSpecRec (hist ++ [c]) cs
    rw [List.singleton_append]
    congr 1
    by_cases hc : hist.count c = 0
    · rw [relabelOut_none _ _ hdc (countsOf_eq_none hist c hc), if_pos hc]
    · rw [relabelOut_some _ _ _ hdc (countsOf_eq_some hist c hc), if_neg hc]
      have h2 : hist.count c - 1 + 1 + 1 = hist.count c + 1 := by omega
      rw [h2]

/-- C9, as stated over every column-name list, is false: a lone pandas-dotted
name such as `"X.1"` is a first occurrence of its label yet is renamed (to
`"X (Leg2)"`) instead of staying bare as the claimed rule (`legSpec`)
predicts. -/
theorem c9_counterexample :
    label_duplicate_columns ["X.1"] = ["X (Leg2)"] ∧
      legSpec ["X.1"] = ["X.1"] ∧ ("X (Leg2)" : String) ≠ "X.1" :=
  ⟨rfl, rfl, by decide⟩

/-- C9 (amended): on every column-name list containing no pandas-dotted name
(`base + "." + digits`), normalization leaves the first occurrence of each
label bare and renames the n-th later occurrence of the same label to the
label followed by `" (Leg n+1)"`, in order of first appearance and
independently of row content; in particular `["X","Y","X","X"]` yields
`["X","Y","X (Leg2)","X (Leg3)"]`.  (Dotted names instead take the C10
rename.) -/
theorem c9_leg_suffixing :
    (∀ cols : List String, (∀ c ∈ cols, isDottedLeg c = false) →
        label_duplicate_columns cols = legSpec cols) ∧
    label_duplicate_columns ["X", "Y", "X", "X"] = ["X", "Y", "X (Leg2)", "X (Leg3)"] := by
  constructor
  · intro cols hnd
    unfold label_duplicate_columns legSpec
    have hinit : (fun _ : String => (none : Option Nat)) = countsOf [] := by
      funext b
      simp [countsOf]
    rw [hinit]
    exact relabel_eq_legSpecRec cols [] hnd
  · rfl

/-- Witness for C9's amended theorem at a concrete dotted-free list. -/
theorem c9_witness :
    label_duplicate_columns ["A", "B", "A"] = legSpec ["A", "B", "A"] :=
  c9_leg_suffixing.1 ["A", "B", "A"] (by decide)

/-- The output of the relabelling fold has one name per input column. -/
theorem relabel_foldl_length :
    ∀ (cols : List String) (m : String → Option Nat),
      ((cols.foldl relabelStep (m, [])).2).length = cols.length := by
  intro cols
  induction cols with
  | nil => intro m; rfl
  | cons c cs ih =>
    intro m
    rw [List.foldl_cons, relabelStep_eq, relabel_foldl_out]
    simp [ih]

/-- A dotted column is renamed by `dottedRename` wherever it sits and
whatever the counts dict holds. -/
theorem relabel_getD_dotted :
    ∀ (cols : List String) (m : String → Option Nat) (i : Nat),
      i < cols.length → isDottedLeg (cols.getD i "") = true →
      ((cols.foldl relabelStep (m, [])).2).getD i "" = dottedRename (cols.getD i "") := by
  intro cols
  induction cols with
  | nil =>
    intro m i hi
    simp at hi
  | cons c cs ih =>
    intro m i hi hd
    rw [List.foldl_cons, relabelStep_eq, relabel_foldl_out]
    show (([] ++ [relabelOut m c]) ++ _).getD i "" = _
    rw [List.nil_append, List.singleton_append]
    cases i with
    | zero =>
      rw [List.getD_cons_zero]
      rw [List.getD_cons_zero] at hd
      unfold relabelOut
      rw [if_pos hd]
      rfl
    | succ j =>
      rw [List.getD_cons_succ]
      rw [List.getD_cons_succ] at hd
      exact ih (relabelCounts m c) j (by simpa using hi) hd

/-- C10: a column of the pandas duplicate form `base + "." + digits d` is
renamed to `base ++ " (Leg" ++ (d+1) ++ ")"` at its position, regardless of
every other column (in particular with no other column sharing the base, and
bypassing the first-occurrence-stays-bare counting); concretely, the lone
column `"X.1"` becomes `"X (Leg2)"`. -/
theorem c10_dotted_rename :
    (∀ (cols : List String) (i : Nat), i < cols.length →
        isDottedLeg (cols.getD i "") = true →
        (label_duplicate_columns cols).getD i "" = dottedRename (cols.getD i "")) ∧
    label_duplicate_columns ["X.1"] = ["X (Leg2)"] ∧
    dottedRename "X.1" = "X (Leg2)" :=
  ⟨fun cols i hi hd => relabel_getD_dotted cols (fun _ => none) i hi hd, rfl, rfl⟩

/-- Witness for C10 at a concrete list where another column precedes the
dotted one. -/
theorem c10_witness :
    (label_duplicate_columns ["Foo", "X.1"]).getD 1 "" = dottedRename "X.1" :=
  c10_dotted_rename.1 ["Foo", "X.1"] 1 (by decide) (by decide)

/-! ### Claim C7 -/

/-- The `setdefault`/`append` dict fold of `build_targets_index`, queried at
one key, yields the initial entry followed by the matching positions in
iteration order. -/
theorem bti_fold :
    ∀ (l : List (Nat × Option String)) (m : String → List Nat) (k : String),
      (l.foldl
        (fun idx p =>
          match p.2 with
          | none => idx
          | some v =>
            let k := norm v
            fun q => if q = k then idx k ++ [p.1 + 1] else idx q)
        m) k
      = m k ++ l.filterMap (fun p =>
          match p.2 with
          | none => none
          | some v => if norm v = k then some (p.1 + 1) else none) := by
  intro l
  induction l with
  | nil => intro m k; simp
  | cons p ps ih =>
    intro m k
    obtain ⟨pos, ov⟩ := p
    rw [List.foldl_cons]
    cases ov with
    | none =>
      rw [ih]
      simp [List.filterMap_cons]
    | some v =>
      rw [ih]
      by_cases hnk : norm v = k
      · simp [List.filterMap_cons, hnk]
      · have hkn : ¬(k = norm v) := fun h => hnk h.symm
        simp [List.filterMap_cons, hnk, hkn]

/-- The built index, queried at a normalized label, is exactly the
left-to-right list of matching 1-based columns. -/
theorem build_targets_index_eq (header : List (Option String)) (k : String) :
    build_targets_index header k = matchingCols header k := by
  unfold build_targets_index matchingCols
  rw [bti_fold]
  simp

/-- C7: target `(label, occ)` resolves against the destination header to the
occ-th physical column whose canonalized header equals the label, counting
matches left to right — concretely `("Price", 2)` on
`["Code","Price","Price","Price"]` gives physical column 3 — and an
occurrence out of range for its label resolves to no column, in which case
that item is skipped (`continue`) while every other item of the row is still
written. -/
theorem c7_target_occurrence :
    resolveTargetColumn
        (build_targets_index [some "Code", some "Price", some "Price", some "Price"])
        "Price" 2 = some 3 ∧
    (∀ (header : List (Option String)) (t : String) (occ : Int),
        1 ≤ occ → occ ≤ (matchingCols header (norm t)).length →
        resolveTargetColumn (build_targets_index header) t occ =
          some ((matchingCols header (norm t)).getD (occ - 1).toNat 0)) ∧
    (∀ (header : List (Option String)) (t : String) (occ : Int),
        ¬(1 ≤ occ ∧ occ ≤ (matchingCols header (norm t)).length) →
        resolveTargetColumn (build_targets_index header) t occ = none) ∧
    (∀ (idx : String → List Nat) (pre post : List MappingTarget)
        (bad : MappingTarget),
        resolveItemColumn idx bad = none →
        rowWrites idx (pre ++ bad :: post) = rowWrites idx (pre ++ post)) := by
  refine ⟨by decide, fun header t occ h1 h2 => ?_, fun header t occ h => ?_,
    fun idx pre post bad hbad => ?_⟩
  · unfold resolveTargetColumn
    rw [build_targets_index_eq]
    rw [if_pos ⟨h1, h2⟩]
  · unfold resolveTargetColumn
    rw [build_targets_index_eq]
    rw [if_neg h]
  · unfold rowWrites
    rw [List.foldl_append, List.foldl_append, List.foldl_cons]
    congr 1
    simp [hbad]

/-- Witness for C7 at a concrete out-of-range occurrence (4 matches only 3
`Price` columns): the item resolves to no column. -/
theorem c7_witness :
    resolveTargetColumn
        (build_targets_index [some "Code", some "Price", some "Price", some "Price"])
        "Price" 4 = none :=
  c7_target_occurrence.2.2.1 [some "Code", some "Price", some "Price", some "Price"]
    "Price" 4 (by decide)

/-! ### Claim C6 -/

/-- C6, as stated, is false: with the configured destination sheet name
absent from the template workbook, the integration does not fail — it
silently proceeds against the workbook's active sheet. -/
theorem c6_counterexample :
    resolveSheet ⟨["Sheet1"], "Sheet1"⟩ (some "Feuille cible") = "Sheet1" ∧
      "Feuille cible" ∉ (Workbook.mk ["Sheet1"] "Sheet1").sheetnames := by
  exact ⟨by decide, by decide⟩

/-- C6 (amended): when the configured destination sheet name is absent from
the template workbook (or no sheet is configured), the integration silently
proceeds against the workbook's active sheet — no error is raised and the
configured name is used only when it exists. -/
theorem c6_missing_sheet_silently_falls_back :
    (∀ (wb : Workbook) (n : String), n ∉ wb.sheetnames →
        resolveSheet wb (some n) = wb.active) ∧
    (∀ (wb : Workbook) (n : String), n ∈ wb.sheetnames →
        resolveSheet wb (some n) = n) ∧
    (∀ wb : Workbook, resolveSheet wb none = wb.active) := by
  refine ⟨fun wb n h => ?_, fun wb n h => ?_, fun wb => rfl⟩
  · show (if n ∈ wb.sheetnames then n else wb.active) = wb.active
    rw [if_neg h]
  · show (if n ∈ wb.sheetnames then n else wb.active) = n
    rw [if_pos h]

/-- Witness for C6's amended theorem at a concrete workbook. -/
theorem c6_witness :
    resolveSheet ⟨["IRS - INF", "BND FWD"], "IRS - INF"⟩ (some "Absent") = "IRS - INF" :=
  c6_missing_sheet_silently_falls_back.1 ⟨["IRS - INF", "BND FWD"], "IRS - INF"⟩
    "Absent" (by decide)

/-! ### Claim C4 -/

/-- C4, as stated, is false: the thousands-separator rule (so that
`"1,234,567"` parses to 1234567) holds only in the reconciler's `_to_float`;
the mapping evaluator's `_parse_number` turns every comma into a dot and
yields null on the same text. -/
theorem c4_counterexample :
    parse_number (.vStr "1,234,567") = none ∧
      collat_to_float (.vStr "1,234,567") = some 1234567 := by
  refine ⟨rfl, ?_⟩
  show pyFloat "1234567" = some 1234567
  show some ((((1234567 : ℕ) : ℚ) + ((0 : ℕ) : ℚ) / (10 : ℚ) ^ (0 : ℕ))
      * (10 : ℚ) ^ (0 : ℤ)) = some 1234567
  norm_num

/-- C4 (amended): the three numeric coercions agree on native numerics
(returned unchanged), on `None`, on single-decimal-comma text (`"3,14"` →
157/50) and on internal (non-breaking) spaces (`"1 234,5"` with NBSP →
2469/2), and each yields null on unparsable text; but they are not one
uniform rule: only the reconciler's `_to_float` strips thousands-separator
commas (`"1,234,567"` → 1234567), while the mapping evaluator's
`_parse_number` and the sensitivity enrichment's `_to_float` replace every
comma with a dot and so yield null on `"1,234,567"`. -/
theorem c4_numeric_coercion :
    (∀ q : ℚ, parse_number (.vNum q) = some q ∧ collat_to_float (.vNum q) = some q ∧
        sensis_to_float (.vNum q) = some q) ∧
    (parse_number .vNone = none ∧ collat_to_float .vNone = none ∧
      sensis_to_float .vNone = none) ∧
    (parse_number (.vStr "1,234,567") = none ∧
      sensis_to_float (.vStr "1,234,567") = none ∧
      collat_to_float (.vStr "1,234,567") = some 1234567) ∧
    (parse_number (.vStr "3,14") = some (157 / 50) ∧
      collat_to_float (.vStr "3,14") = some (157 / 50) ∧
      sensis_to_float (.vStr "3,14") = some (157 / 50)) ∧
    (parse_number (.vStr "1 234,5") = some (2469 / 2) ∧
      collat_to_float (.vStr "1 234,5") = some (2469 / 2) ∧
      sensis_to_float (.vStr "1 234,5") = some (2469 / 2)) ∧
    (parse_number (.vStr "abc") = none ∧ collat_to_float (.vStr "abc") = none ∧
      sensis_to_float (.vStr "abc") = none) := by
  refine ⟨fun q => ⟨rfl, rfl, rfl⟩, ⟨rfl, rfl, rfl⟩, ⟨rfl, rfl, ?_⟩,
    ⟨?_, ?_, ?_⟩, ⟨?_, ?_, ?_⟩, ⟨rfl, rfl, rfl⟩⟩
  · show pyFloat "1234567" = some 1234567
    show some ((((1234567 : ℕ) : ℚ) + ((0 : ℕ) : ℚ) / (10 : ℚ) ^ (0 : ℕ))
        * (10 : ℚ) ^ (0 : ℤ)) = some 1234567
    norm_num
  · show pyFloat "3.14" = some (157 / 50)
    show some ((((3 : ℕ) : ℚ) + ((14 : ℕ) : ℚ) / (10 : ℚ) ^ (2 : ℕ))
        * (10 : ℚ) ^ (0 : ℤ)) = some (157 / 50)
    norm_num
  · show pyFloat "3.14" = some (157 / 50)
    show some ((((3 : ℕ) : ℚ) + ((14 : ℕ) : ℚ) / (10 : ℚ) ^ (2 : ℕ))
        * (10 : ℚ) ^ (0 : ℤ)) = some (157 / 50)
    norm_num
  · show pyFloat "3.14" = some (157 / 50)
    show some ((((3 : ℕ) : ℚ) + ((14 : ℕ) : ℚ) / (10 : ℚ) ^ (2 : ℕ))
        * (10 : ℚ) ^ (0 : ℤ)) = some (157 / 50)
    norm_num
  · show pyFloat "1234.5" = some (2469 / 2)
    show some ((((1234 : ℕ) : ℚ) + ((5 : ℕ) : ℚ) / (10 : ℚ) ^ (1 : ℕ))
        * (10 : ℚ) ^ (0 : ℤ)) = some (2469 / 2)
    norm_num
  · show pyFloat "1234.5" = some (2469 / 2)
    show some ((((1234 : ℕ) : ℚ) + ((5 : ℕ) : ℚ) / (10 : ℚ) ^ (1 : ℕ))
        * (10 : ℚ) ^ (0 : ℤ)) = some (2469 / 2)
    norm_num
  · show pyFloat "1234.5" = some (2469 / 2)
    show some ((((1234 : ℕ) : ℚ) + ((5 : ℕ) : ℚ) / (10 : ℚ) ^ (1 : ℕ))
        * (10 : ℚ) ^ (0 : ℤ)) = some (2469 / 2)
    norm_num

/-! ### Claim C5 -/

/-- `get_col` only ever returns a column whose normalization matches the
logical name. -/
theorem getCol_norm {t : Table} {l c : String} (h : getCol t l = some c) :
    norm c = norm l := by
  have := List.find?_some h
  simpa using this

/-- Concatenating a single table keeps its column list. -/
theorem concatTables_single_cols (t : Table) : (concatTables [t]).cols = t.cols := by
  show [] ++ t.cols.filter (fun c => !(List.contains [] c)) = t.cols
  rw [List.nil_append]
  have : ∀ c : String, (!(List.contains [] c)) = true := fun c => rfl
  calc t.cols.filter (fun c => !(List.contains [] c))
      = t.cols.filter (fun _ => true) := by
        apply List.filter_congr
        intro c _
        rfl
    _ = t.cols := List.filter_true t.cols

/-- C5, as stated, is false at a concrete input: the filter succeeds on a
well-formed table but fails (missing required column) when run again on its
own output. -/
theorem c5_counterexample :
    build_perimeter [⟨["Custom Attribute5 Value", "Class", "#Ticket"],
        [[.txt "AB12", .txt "Swap", .txt "T1"]]⟩]
      = .ok (⟨["Code DI", "Classif DI", "Class", "#Ticket"],
          [[.txt "AB12", .txt "Swap", .txt "Swap", .txt "T1"]]⟩,
        ⟨["#Ticket"], 1, 1⟩) ∧
    exceptIsOk (build_perimeter [⟨["Code DI", "Classif DI", "Class", "#Ticket"],
        [[.txt "AB12", .txt "Swap", .txt "Swap", .txt "T1"]]⟩]) = false := by
  exact ⟨rfl, rfl⟩

/-- C5 (amended): the Perimeter Filter is not idempotent — whenever it
succeeds, running it a second time on its own output fails with the
missing-required-column error, because the output renames the
classification-code column to `"Code DI"` and no output column normalizes to
`"Custom Attribute5 Value"`. -/
theorem c5_second_run_fails :
    ∀ (frames : List Table) (res : Table) (meta : PerimeterMeta),
      build_perimeter frames = .ok (res, meta) →
      exceptIsOk (build_perimeter [res]) = false := by
  intro frames res meta h
  simp only [build_perimeter] at h
  have hcols : ∀ c ∈ res.cols, ¬(norm c == norm "Custom Attribute5 Value") = true := by
    split at h
    · exact absurd h (by simp)
    split at h
    · exact absurd h (by simp)
    rw [Except.ok.injEq, Prod.mk.injEq] at h
    obtain ⟨hres, -⟩ := h
    have hc2 : res.cols = ["Code DI", "Classif DI", "Class"] ++
        (List.filterMap (getCol (concatTables frames)) ["#Ticket", "Trade ID", "External Id"] ++
          List.filterMap (getCol (concatTables frames)) ["Counterparty", "Currency"]) := by
      rw [← hres]
    intro c hc
    rw [hc2] at hc
    simp only [List.mem_append, List.mem_cons, List.mem_filterMap,
      List.not_mem_nil, or_false] at hc
    rcases hc with (rfl | rfl | rfl) | (⟨l, hl, hgc⟩ | ⟨l, hl, hgc⟩)
    · decide
    · decide
    · decide
    · have hnc := getCol_norm hgc
      rcases hl with rfl | rfl | rfl <;>
        · rw [hnc]
          decide
    · have hnc := getCol_norm hgc
      rcases hl with rfl | rfl <;>
        · rw [hnc]
          decide
  have hnone : getCol (concatTables [res]) "Custom Attribute5 Value" = none := by
    unfold getCol
    rw [List.find?_eq_none]
    intro c hc
    rw [concatTables_single_cols] at hc
    exact hcols c hc
  simp only [build_perimeter, hnone]
  rfl

/-- Witness for C5's amended theorem at the concrete successful run of the
counterexample. -/
theorem c5_witness :
    exceptIsOk (build_perimeter [⟨["Code DI", "Classif DI", "Class", "#Ticket"],
        [[.txt "AB12", .txt "Swap", .txt "Swap", .txt "T1"]]⟩]) = false :=
  c5_second_run_fails
    [⟨["Custom Attribute5 Value", "Class", "#Ticket"],
        [[.txt "AB12", .txt "Swap", .txt "T1"]]⟩]
    ⟨["Code DI", "Classif DI", "Class", "#Ticket"],
        [[.txt "AB12", .txt "Swap", .txt "Swap", .txt "T1"]]⟩
    ⟨["#Ticket"], 1, 1⟩ rfl

/-! ### Claim C8 -/

/-- The comparison, outside the trivially empty case, is the merged row for
each key of the sorted, deduplicated union of the two aggregated key sets. -/
theorem bcc_eq (tmplRows : List TmplRow) (collRows : List CollRow)
    (aC aT : AliasMap) (h : ¬(tmplRows = [] ∧ collRows = [])) :
    build_collateral_comparison tmplRows collRows aC aT =
      (List.insertionSort (fun a b => keyLeB a b = true)
        (((aggColl aC aT collRows).map Prod.fst ++
          (aggTmpl aC aT tmplRows).map Prod.fst).dedup)).map
        (reconRowFor (aggTmpl aC aT tmplRows) (aggColl aC aT collRows)) := by
  unfold build_collateral_comparison
  rw [if_neg h]

theorem aggTmpl_nil (aC aT : AliasMap) : aggTmpl aC aT [] = [] := rfl

theorem aggColl_nil (aC aT : AliasMap) : aggColl aC aT [] = [] := rfl

/-- Looking a key up in an association list built by pairing each key with a
function of it. -/
theorem lookup_map_self (f : ReconKey → AggRec) :
    ∀ (keys : List ReconKey) (k : ReconKey), k ∈ keys →
      (keys.map fun x => (x, f x)).lookup k = some (f k) := by
  intro keys
  induction keys with
  | nil => intro k hk; simp at hk
  | cons c cs ih =>
    intro k hk
    rw [List.map_cons, List.lookup_cons]
    by_cases hkc : k = c
    · subst hkc
      simp
    · have : (k == c) = false := by
        rw [Bool.eq_false_iff]
        simpa using hkc
      rw [this]
      rcases List.mem_cons.mp hk with h | h
      · exact absurd h hkc
      · exact ih k h

/-- A key absent from the first components is not found. -/
theorem lookup_eq_none_of_not_mem :
    ∀ (pairs : List (ReconKey × AggRec)) (k : ReconKey),
      k ∉ pairs.map Prod.fst → pairs.lookup k = none := by
  intro pairs
  induction pairs with
  | nil => intro k _; rfl
  | cons p ps ih =>
    intro k hk
    obtain ⟨k0, v0⟩ := p
    rw [List.lookup_cons]
    rw [List.map_cons, List.mem_cons] at hk
    push_neg at hk
    have : (k == k0) = false := by
      rw [Bool.eq_false_iff]
      simpa using hk.1
    rw [this]
    exact ih k hk.2

/-- Mapping first projection over key-indexed pairs recovers the keys. -/
theorem map_fst_map_pair {α β : Type} (f : α → β) (l : List α) :
    (l.map fun x => (x, f x)).map Prod.fst = l := by
  induction l with
  | nil => rfl
  | cons c cs ih => simp [ih]

/-- The aggregated key column is the grouped key list. -/
theorem aggTmpl_keys (aC aT : AliasMap) (rows : List TmplRow) :
    (aggTmpl aC aT rows).map Prod.fst = groupKeys (tmplNormRows aC aT rows) := by
  unfold aggTmpl
  exact map_fst_map_pair _ _

theorem aggColl_keys (aC aT : AliasMap) (rows : List CollRow) :
    (aggColl aC aT rows).map Prod.fst = groupKeys (collNormRows aC aT rows) := by
  unfold aggColl
  exact map_fst_map_pair _ _

theorem groupKeys_nodup {α : Type} (pairs : List (ReconKey × α)) :
    (groupKeys pairs).Nodup :=
  (List.perm_insertionSort _ _).symm.nodup (List.nodup_dedup _)

theorem groupKeys_mem {α : Type} (pairs : List (ReconKey × α)) (k : ReconKey) :
    k ∈ groupKeys pairs ↔ k ∈ pairs.map Prod.fst := by
  unfold groupKeys
  rw [(List.perm_insertionSort _ _).mem_iff, List.mem_dedup]

/-- The first non-null of a nonempty all-non-null column. -/
theorem first_notna_isSome {α : Type} (l : List (Option α)) (hne : l ≠ [])
    (h : ∀ x ∈ l, x.isSome = true) : (first_notna l).isSome = true := by
  cases l with
  | nil => exact absurd rfl hne
  | cons x xs =>
    have hx := h x (by simp)
    unfold first_notna
    rw [List.findSome?_cons]
    cases x with
    | none => simp at hx
    | some v => rfl

/-- A normalized label only exists for a present raw label. -/
theorem normalize_label_isSome {m : AliasMap} {v : Option String} {x : String}
    (h : normalize_label m v = some x) : v.isSome = true := by
  cases v with
  | none => simp [normalize_label, clean_label] at h
  | some s => rfl

/-- Every row kept by the template-side normalization has a present
counterparty label. -/
theorem tmplNormRows_counterparty_isSome {aC aT : AliasMap} {rows : List TmplRow}
    {p : ReconKey × TmplRow} (hp : p ∈ tmplNormRows aC aT rows) :
    p.2.counterparty.isSome = true := by
  unfold tmplNormRows at hp
  rw [List.mem_filterMap] at hp
  obtain ⟨r, _, heq⟩ := hp
  cases hc : normalize_label aC r.counterparty with
  | none => rw [hc] at heq; simp at heq
  | some nc =>
    cases ht : normalize_label aT r.classifDI with
    | none => rw [hc, ht] at heq; simp at heq
    | some nt =>
      rw [hc, ht, Option.some.injEq] at heq
      rw [← heq]
      exact normalize_label_isSome hc

theorem collNormRows_counterparty_isSome {aC aT : AliasMap} {rows : List CollRow}
    {p : ReconKey × CollRow} (hp : p ∈ collNormRows aC aT rows) :
    p.2.counterparty.isSome = true := by
  unfold collNormRows at hp
  rw [List.mem_filterMap] at hp
  obtain ⟨r, _, heq⟩ := hp
  cases hc : normalize_label aC r.counterparty with
  | none => rw [hc] at heq; simp at heq
  | some nc =>
    cases ht : normalize_label aT r.typologie with
    | none => rw [hc, ht] at heq; simp at heq
    | some nt =>
      rw [hc, ht, Option.some.injEq] at heq
      rw [← heq]
      exact normalize_label_isSome hc

/-- A key of the aggregated template side is found with a present display
counterparty. -/
theorem aggTmpl_lookup (aC aT : AliasMap) (rows : List TmplRow) (k : ReconKey)
    (hk : k ∈ (aggTmpl aC aT rows).map Prod.fst) :
    ∃ rec : AggRec, (aggTmpl aC aT rows).lookup k = some rec ∧
      rec.text1.isSome = true := by
  rw [aggTmpl_keys, groupKeys_mem] at hk
  obtain ⟨p, hp, hpk⟩ := List.mem_map.mp hk
  have hkg : k ∈ groupKeys (tmplNormRows aC aT rows) := by
    rw [groupKeys_mem]
    exact List.mem_map.mpr ⟨p, hp, hpk⟩
  refine ⟨_, lookup_map_self _ (groupKeys (tmplNormRows aC aT rows)) k hkg, ?_⟩
  apply first_notna_isSome
  · have hpmem : p ∈ (tmplNormRows aC aT rows).filter (fun q => q.1 == k) := by
      rw [List.mem_filter]
      exact ⟨hp, by simpa using hpk⟩
    intro hnil
    rw [List.map_eq_nil_iff, List.map_eq_nil_iff] at hnil
    rw [hnil] at hpmem
    simp at hpmem
  · intro x hx
    rw [List.mem_map] at hx
    obtain ⟨r, hr, hrx⟩ := hx
    rw [List.mem_map] at hr
    obtain ⟨q, hq, hqr⟩ := hr
    rw [List.mem_filter] at hq
    rw [← hrx, ← hqr]
    exact tmplNormRows_counterparty_isSome hq.1

theorem aggColl_lookup (aC aT : AliasMap) (rows : List CollRow) (k : ReconKey)
    (hk : k ∈ (aggColl aC aT rows).map Prod.fst) :
    ∃ rec : AggRec, (aggColl aC aT rows).lookup k = some rec ∧
      rec.text1.isSome = true := by
  rw [aggColl_keys, groupKeys_mem] at hk
  obtain ⟨p, hp, hpk⟩ := List.mem_map.mp hk
  have hkg : k ∈ groupKeys (collNormRows aC aT rows) := by
    rw [groupKeys_mem]
    exact List.mem_map.mpr ⟨p, hp, hpk⟩
  refine ⟨_, lookup_map_self _ (groupKeys (collNormRows aC aT rows)) k hkg, ?_⟩
  apply first_notna_isSome
  · have hpmem : p ∈ (collNormRows aC aT rows).filter (fun q => q.1 == k) := by
      rw [List.mem_filter]
      exact ⟨hp, by simpa using hpk⟩
    intro hnil
    rw [List.map_eq_nil_iff, List.map_eq_nil_iff] at hnil
    rw [hnil] at hpmem
    simp at hpmem
  · intro x hx
    rw [List.mem_map] at hx
    obtain ⟨r, hr, hrx⟩ := hx
    rw [List.mem_map] at hr
    obtain ⟨q, hq, hqr⟩ := hr
    rw [List.mem_filter] at hq
    rw [← hrx, ← hqr]
    exact collNormRows_counterparty_isSome hq.1

/-- Filtering a duplicate-free key list for one of its members keeps exactly
that member. -/
theorem filter_beq_singleton :
    ∀ (l : List ReconKey) (k : ReconKey), l.Nodup → k ∈ l →
      l.filter (fun x => x == k) = [k] := by
  intro l
  induction l with
  | nil => intro k _ hk; simp at hk
  | cons c cs ih =>
    intro k hnd hk
    have hnd' := List.nodup_cons.mp hnd
    by_cases hkc : k = c
    · subst hkc
      rw [List.filter_cons_of_pos (by simp)]
      have : cs.filter (fun x => x == k) = [] := by
        rw [List.filter_eq_nil_iff]
        intro a ha
        simp only [beq_iff_eq]
        intro hak
        rw [hak] at ha
        exact hnd'.1 ha
      rw [this]
    · have hkcs : k ∈ cs := by
        rcases List.mem_cons.mp hk with h | h
        · exact absurd h hkc
        · exact h
      rw [List.filter_cons_of_neg (by simpa using fun h => hkc h.symm)]
      exact ih k hnd'.2 hkcs

/-- The filtered output for one key of the merged comparison is exactly its
merged row. -/
theorem bcc_filter_key (tmplRows : List TmplRow) (collRows : List CollRow)
    (aC aT : AliasMap) (k : ReconKey) (hne : ¬(tmplRows = [] ∧ collRows = []))
    (hk : k ∈ (aggColl aC aT collRows).map Prod.fst ∨
      k ∈ (aggTmpl aC aT tmplRows).map Prod.fst) :
    (build_collateral_comparison tmplRows collRows aC aT).filter
        (fun r => (r.normCounterparty, r.normTypologie) == k)
      = [reconRowFor (aggTmpl aC aT tmplRows) (aggColl aC aT collRows) k] := by
  have hnodup : (List.insertionSort (fun a b => keyLeB a b = true)
      (((aggColl aC aT collRows).map Prod.fst ++
        (aggTmpl aC aT tmplRows).map Prod.fst).dedup)).Nodup :=
    (List.perm_insertionSort _ _).symm.nodup (List.nodup_dedup _)
  have hmem : k ∈ List.insertionSort (fun a b => keyLeB a b = true)
      (((aggColl aC aT collRows).map Prod.fst ++
        (aggTmpl aC aT tmplRows).map Prod.fst).dedup) := by
    rw [(List.perm_insertionSort _ _).mem_iff, List.mem_dedup, List.mem_append]
    exact hk
  rw [bcc_eq _ _ _ _ hne, List.filter_map]
  have hcongr : List.filter
      ((fun r => (r.normCounterparty, r.normTypologie) == k) ∘
        reconRowFor (aggTmpl aC aT tmplRows) (aggColl aC aT collRows))
      (List.insertionSort (fun a b => keyLeB a b = true)
        (((aggColl aC aT collRows).map Prod.fst ++
          (aggTmpl aC aT tmplRows).map Prod.fst).dedup))
      = List.filter (fun x => x == k)
        (List.insertionSort (fun a b => keyLeB a b = true)
          (((aggColl aC aT collRows).map Prod.fst ++
            (aggTmpl aC aT tmplRows).map Prod.fst).dedup)) := by
    apply List.filter_congr
    intro a _
    show ((a.1, a.2) == k) = (a == k)
    rw [Prod.mk.eta]
  rw [hcongr, filter_beq_singleton _ k hnodup hmem]
  rfl

/-- C8: after aggregation by normalized key the comparison is an outer join:
a key present on exactly one side still yields exactly one output row, with
the missing side's two monetary totals zero, its labels null and its presence
flag false; both discrepancy columns are template-side minus collateral-side;
and the concrete one-key-per-side example yields precisely the two described
rows. -/
theorem c8_outer_join :
    (∀ (tmplRows : List TmplRow) (collRows : List CollRow) (aC aT : AliasMap)
        (k : ReconKey),
        k ∈ (aggTmpl aC aT tmplRows).map Prod.fst →
        k ∉ (aggColl aC aT collRows).map Prod.fst →
        ((build_collateral_comparison tmplRows collRows aC aT).filter
            (fun r => (r.normCounterparty, r.normTypologie) == k)).length = 1 ∧
        ∀ r ∈ (build_collateral_comparison tmplRows collRows aC aT).filter
            (fun r => (r.normCounterparty, r.normTypologie) == k),
          r.mtmGamCollateral = 0 ∧ r.mtmCpCollateral = 0 ∧
          r.counterpartyCollateral = none ∧ r.typologie = none ∧
          r.presentCollateral = false ∧ r.presentTemplate = true ∧
          r.ecartGam = r.mtmGamTemplate ∧ r.ecartCp = r.mtmCpTemplate) ∧
    (∀ (tmplRows : List TmplRow) (collRows : List CollRow) (aC aT : AliasMap)
        (k : ReconKey),
        k ∈ (aggColl aC aT collRows).map Prod.fst →
        k ∉ (aggTmpl aC aT tmplRows).map Prod.fst →
        ((build_collateral_comparison tmplRows collRows aC aT).filter
            (fun r => (r.normCounterparty, r.normTypologie) == k)).length = 1 ∧
        ∀ r ∈ (build_collateral_comparison tmplRows collRows aC aT).filter
            (fun r => (r.normCounterparty, r.normTypologie) == k),
          r.mtmGamTemplate = 0 ∧ r.mtmCpTemplate = 0 ∧
          r.counterpartyTemplate = none ∧ r.classifDI = none ∧
          r.presentTemplate = false ∧ r.presentCollateral = true ∧
          r.ecartGam = -r.mtmGamCollateral ∧ r.ecartCp = -r.mtmCpCollateral) ∧
    (∀ (tmplRows : List TmplRow) (collRows : List CollRow) (aC aT : AliasMap)
        (r : ReconRow), r ∈ build_collateral_comparison tmplRows collRows aC aT →
        r.ecartGam = r.mtmGamTemplate - r.mtmGamCollateral ∧
        r.ecartCp = r.mtmCpTemplate - r.mtmCpCollateral) ∧
    build_collateral_comparison [⟨some "A", some "X", some 100, some 0⟩]
        [⟨some "B", some "Y", some 50, some 0⟩] [] []
      = [⟨"A", "X", some "A", some "X", 100, 0, none, none, 0, 0, 100, 0, true, false⟩,
         ⟨"B", "Y", none, none, 0, 0, some "B", some "Y", 50, 0, -50, 0, false, true⟩] := by
  refine ⟨?_, ?_, ?_, ?_⟩
  · intro tmplRows collRows aC aT k hkt hkc
    have hne : ¬(tmplRows = [] ∧ collRows = []) := by
      rintro ⟨h1, -⟩
      rw [h1, aggTmpl_nil] at hkt
      simp at hkt
    obtain ⟨recT, hlookT, hsomeT⟩ := aggTmpl_lookup aC aT tmplRows k hkt
    have hlookC : (aggColl aC aT collRows).lookup k = none :=
      lookup_eq_none_of_not_mem _ k hkc
    have hfilter := bcc_filter_key tmplRows collRows aC aT k hne (Or.inr hkt)
    rw [hfilter]
    refine ⟨rfl, ?_⟩
    intro r hr
    rw [List.mem_singleton] at hr
    subst hr
    simp [reconRowFor, hlookT, hlookC, hsomeT]
  · intro tmplRows collRows aC aT k hkc hkt
    have hne : ¬(tmplRows = [] ∧ collRows = []) := by
      rintro ⟨-, h2⟩
      rw [h2, aggColl_nil] at hkc
      simp at hkc
    obtain ⟨recC, hlookC, hsomeC⟩ := aggColl_lookup aC aT collRows k hkc
    have hlookT : (aggTmpl aC aT tmplRows).lookup k = none :=
      lookup_eq_none_of_not_mem _ k hkt
    have hfilter := bcc_filter_key tmplRows collRows aC aT k hne (Or.inl hkc)
    rw [hfilter]
    refine ⟨rfl, ?_⟩
    intro r hr
    rw [List.mem_singleton] at hr
    subst hr
    simp [reconRowFor, hlookT, hlookC, hsomeC]
  · intro tmplRows collRows aC aT r hr
    by_cases hboth : tmplRows = [] ∧ collRows = []
    · obtain ⟨h1, h2⟩ := hboth
      subst h1
      subst h2
      rw [show build_collateral_comparison ([] : List TmplRow) ([] : List CollRow) aC aT
          = [] from by unfold build_collateral_comparison; rw [if_pos ⟨rfl, rfl⟩]] at hr
      simp at hr
    · rw [bcc_eq _ _ _ _ hboth] at hr
      rw [List.mem_map] at hr
      obtain ⟨k, -, hk⟩ := hr
      rw [← hk]
      exact ⟨rfl, rfl⟩
  · have h1 : aggTmpl [] [] [⟨some "A", some "X", some 100, some 0⟩]
        = [(("A", "X"), ⟨some "A", some "X", 100, 0⟩)] := by
      show [(("A", "X"),
        (⟨some "A", some "X", sum_notna [some 100], sum_notna [some 0]⟩ : AggRec))] = _
      norm_num [sum_notna, List.filterMap_cons, List.filterMap_nil, id_eq,
        List.sum_cons, List.sum_nil]
    have h2 : aggColl [] [] [⟨some "B", some "Y", some 50, some 0⟩]
        = [(("B", "Y"), ⟨some "B", some "Y", 50, 0⟩)] := by
      show [(("B", "Y"),
        (⟨some "B", some "Y", sum_notna [some 50], sum_notna [some 0]⟩ : AggRec))] = _
      norm_num [sum_notna, List.filterMap_cons, List.filterMap_nil, id_eq,
        List.sum_cons, List.sum_nil]
    rw [bcc_eq _ _ _ _ (by simp), h1, h2]
    show [reconRowFor [(("A", "X"), ⟨some "A", some "X", 100, 0⟩)]
            [(("B", "Y"), ⟨some "B", some "Y", 50, 0⟩)] ("A", "X"),
          reconRowFor [(("A", "X"), ⟨some "A", some "X", 100, 0⟩)]
            [(("B", "Y"), ⟨some "B", some "Y", 50, 0⟩)] ("B", "Y")] = _
    show [(⟨"A", "X", some "A", some "X", 100, 0, none, none, 0, 0,
            100 - 0, 0 - 0, true, false⟩ : ReconRow),
          ⟨"B", "Y", none, none, 0, 0, some "B", some "Y", 50, 0,
            0 - 50, 0 - 0, false, true⟩] = _
    norm_num

/-- Witness for C8's one-side-only conjunct at the concrete example: the key
`("A","X")` is template-only and yields exactly one output row. -/
theorem c8_witness :
    ((build_collateral_comparison [⟨some "A", some "X", some 100, some 0⟩]
        [⟨some "B", some "Y", some 50, some 0⟩] [] []).filter
      (fun r => (r.normCounterparty, r.normTypologie) == ("A", "X"))).length = 1 :=
  (c8_outer_join.1 [⟨some "A", some "X", some 100, some 0⟩]
    [⟨some "B", some "Y", some 50, some 0⟩] [] [] ("A", "X")
    (by decide) (by decide)).1

end IFT
